import Mathlib

/-!
Shallow embedding of `src/Triangle.cpp` (CCollision): the AABB collision
test, the directional collision classifier, the translation-matrix builder,
the per-frame jump/fall motion logic of the render loop, and the
initialization/exit-code skeleton of `main`.

Float arithmetic of the source is modelled exactly: `ℚ` for the purely
rational collision/matrix arithmetic, `ℝ` where the jump curve uses `sinf`
and `M_PI`.  The fall arithmetic is stated over any linear ordered field so
it can be used both at `ℚ` (decidable, for concrete runs) and at `ℝ`
(inside the render loop).
-/

namespace CCollision

/-- `checkCollision` from `src/Triangle.cpp` lines 88-91:
`return !(x1 + width1 < x2 || x1 > x2 + width2 || y1 + height1 < y2 || y1 > y2 + height2);` -/
def checkCollision (x1 y1 width1 height1 x2 y2 width2 height2 : ℚ) : Bool :=
  !(decide (x1 + width1 < x2) || decide (x1 > x2 + width2) ||
    decide (y1 + height1 < y2) || decide (y1 > y2 + height2))

/-- `checkCollisionDirection` from `src/Triangle.cpp` lines 93-126: an outer
strict-overlap test guarding four edge classifications (1 = left, 2 = right,
3 = top, 4 = bottom), 0 when no branch fires.  The sequential early returns of
the source become nested if-else. -/
def checkCollisionDirection (x1 y1 width1 height1 x2 y2 width2 height2 : ℚ) : Int :=
  if x1 + width1 > x2 ∧ x1 < x2 + width2 ∧ y1 + height1 > y2 ∧ y1 < y2 + height2 then
    if (x1 + width1 > x2 ∧ x1 < x2) ∧ (y1 + height1 > y2 ∧ y1 < y2 + height2) then 1
    else if (x1 < x2 + width2 ∧ x1 + width1 > x2 + width2) ∧
        (y1 + height1 > y2 ∧ y1 < y2 + height2) then 2
    else if (y1 + height1 > y2 ∧ y1 < y2) ∧ (x1 + width1 > x2 ∧ x1 < x2 + width2) then 3
    else if (y1 < y2 + height2 ∧ y1 + height1 > y2 + height2) ∧
        (x1 + width1 > x2 ∧ x1 < x2 + width2) then 4
    else 0
  else 0

/-- Boundary-inclusive AABB overlap, written from the spec's words: the boxes
overlap on the x axis and on the y axis, touching edges counting as overlap. -/
def overlapBoundaryInclusive (x1 y1 width1 height1 x2 y2 width2 height2 : ℚ) : Prop :=
  (x1 ≤ x2 + width2 ∧ x2 ≤ x1 + width1) ∧ (y1 ≤ y2 + height2 ∧ y2 ≤ y1 + height1)

/-- `identityMatrix` from `src/Triangle.cpp` lines 74-78: entry `i` of the
16-entry row-major matrix is 1 when `i % 5 == 0`, else 0. -/
def identityMatrix : Fin 16 → ℚ :=
  fun i => if i.val % 5 = 0 then 1 else 0

/-- `createTranslationMatrix` from `src/Triangle.cpp` lines 81-85: start from
the identity matrix, then write `x` at slot 3 and `y` at slot 7. -/
def createTranslationMatrix (x y : ℚ) : Fin 16 → ℚ :=
  Function.update (Function.update identityMatrix 3 x) 7 y

/-- The mutable jump/fall state of the render loop in `src/Triangle.cpp`
lines 199-204: the flags `isJumping` and `isFalling`, the current vertical
offset `jumpHeight`, and `jumpStartTime`. -/
structure MotionState (α : Type) where
  isJumping : Bool
  isFalling : Bool
  jumpHeight : α
  jumpStartTime : α

/-- `jumpSpeed = 0.1f` from `src/Triangle.cpp` line 202. -/
def jumpSpeed {α : Type} [LinearOrderedField α] : α := 0.1

/-- `jumpDuration = 1.0f` from `src/Triangle.cpp` line 204. -/
def jumpDuration : ℝ := 1

/-- The space-key branch of the render loop, `src/Triangle.cpp` lines 228-232:
when space is pressed and the shape is not already jumping, set `isJumping`,
record `jumpStartTime = currentFrame`, clear `isFalling`. -/
def inputStep {α : Type} (s : MotionState α) (spacePressed : Bool)
    (currentFrame : α) : MotionState α :=
  if spacePressed && !s.isJumping then
    { s with isJumping := true, jumpStartTime := currentFrame, isFalling := false }
  else s

/-- The jumping branch, `src/Triangle.cpp` lines 235-245: while `isJumping`,
`jumpProgress = (currentFrame - jumpStartTime) / jumpDuration`; below 1 the
offset follows `sinf(jumpProgress * M_PI) * 0.5f`, otherwise the offset is
zeroed, `isJumping` cleared and `isFalling` set. -/
noncomputable def jumpStep (s : MotionState ℝ) (currentFrame : ℝ) : MotionState ℝ :=
  if s.isJumping then
    if (currentFrame - s.jumpStartTime) / jumpDuration < 1 then
      { s with jumpHeight :=
          Real.sin (((currentFrame - s.jumpStartTime) / jumpDuration) * Real.pi) * 0.5 }
    else
      { s with jumpHeight := 0, isJumping := false, isFalling := true }
  else s

/-- The falling branch, `src/Triangle.cpp` lines 248-254: while `isFalling`,
subtract `jumpSpeed` from the offset; once it is ≤ 0, clamp it to 0 and clear
`isFalling`. -/
def fallStep {α : Type} [LinearOrderedField α] (s : MotionState α) : MotionState α :=
  if s.isFalling then
    if s.jumpHeight - jumpSpeed ≤ 0 then
      { s with jumpHeight := 0, isFalling := false }
    else
      { s with jumpHeight := s.jumpHeight - jumpSpeed }
  else s

/-- One iteration of the render loop's motion logic, `src/Triangle.cpp`
lines 228-254: input handling, then the jump branch, then the fall branch,
all at the iteration's `currentFrame` time. -/
noncomputable def frameStep (s : MotionState ℝ) (spacePressed : Bool)
    (currentFrame : ℝ) : MotionState ℝ :=
  fallStep (jumpStep (inputStep s spacePressed currentFrame) currentFrame)

/-- The motion state before the render loop, `src/Triangle.cpp` lines 199-203:
both flags false, offset 0, start time 0. -/
def initialState : MotionState ℝ :=
  { isJumping := false, isFalling := false, jumpHeight := 0, jumpStartTime := 0 }

/-- Running the render loop over a list of frames, each a pair of the sampled
space-key state and the frame's `glfwGetTime()` value. -/
noncomputable def runFrames : MotionState ℝ → List (Bool × ℝ) → MotionState ℝ
  | s, [] => s
  | s, (space, t) :: rest => runFrames (frameStep s space t) rest

/-- The invariant carried across render-loop iterations, relative to the time
`t` of the last processed frame: the offset is nonnegative, `isFalling` is
false at iteration boundaries, and an active jump started no later than `t`. -/
def MotionInv (s : MotionState ℝ) (t : ℝ) : Prop :=
  0 ≤ s.jumpHeight ∧ s.isFalling = false ∧ (s.isJumping = true → s.jumpStartTime ≤ t)

/-- The initialization and exit-code skeleton of `main`, `src/Triangle.cpp`
lines 128-149 and 295-297, as a function of the three external
initialization outcomes (GLFW init, window creation, GLEW init): each failure
returns -1 after writing its message to standard error; when all succeed the
render loop runs until the window-close flag and `main` returns 0.  The
result is the exit code paired with the lines written to standard error. -/
def mainRun (glfwInitOk windowOk glewOk : Bool) : Int × List String :=
  if !glfwInitOk then (-1, ["Failed to initialize GLFW"])
  else if !windowOk then (-1, ["Failed to create GLFW window"])
  else if !glewOk then (-1, ["Failed to initialize GLEW"])
  else (0, [])

end CCollision

namespace CCollision

lemma checkCollision_eq_true_iff (x1 y1 width1 height1 x2 y2 width2 height2 : ℚ) :
    checkCollision x1 y1 width1 height1 x2 y2 width2 height2 = true ↔
      overlapBoundaryInclusive x1 y1 width1 height1 x2 y2 width2 height2 := by
  simp only [checkCollision, overlapBoundaryInclusive, Bool.not_eq_true',
    Bool.or_eq_false_iff, decide_eq_false_iff_not, not_lt, gt_iff_lt]
  tauto

/-- C1: `checkCollision` returns true iff the two axis-aligned boxes overlap on
both axes with boundary-inclusive semantics (touching edges count as
collision); in particular it is false for A=(0,0,1,1), B=(5,5,1,1), true for
identical boxes (0,0,1,1), and true when the boxes share exactly one edge
coordinate (x1+w1 = x2). -/
theorem checkCollision_boundary_inclusive :
    (∀ x1 y1 w1 h1 x2 y2 w2 h2 : ℚ,
      checkCollision x1 y1 w1 h1 x2 y2 w2 h2 = true ↔
        overlapBoundaryInclusive x1 y1 w1 h1 x2 y2 w2 h2) ∧
    checkCollision 0 0 1 1 5 5 1 1 = false ∧
    checkCollision 0 0 1 1 0 0 1 1 = true ∧
    checkCollision 0 0 1 1 1 0 1 1 = true := by
  refine ⟨checkCollision_eq_true_iff, ?_, ?_, ?_⟩
  · rw [← Bool.not_eq_true, checkCollision_eq_true_iff]
    unfold overlapBoundaryInclusive
    norm_num
  · rw [checkCollision_eq_true_iff]
    unfold overlapBoundaryInclusive
    norm_num
  · rw [checkCollision_eq_true_iff]
    unfold overlapBoundaryInclusive
    norm_num

/-- C5: `checkCollision` is symmetric under swapping the two boxes' order, for
all inputs, boundary cases included. -/
theorem checkCollision_symm (x1 y1 w1 h1 x2 y2 w2 h2 : ℚ) :
    checkCollision x1 y1 w1 h1 x2 y2 w2 h2 =
      checkCollision x2 y2 w2 h2 x1 y1 w1 h1 := by
  rw [Bool.eq_iff_iff, checkCollision_eq_true_iff, checkCollision_eq_true_iff]
  unfold overlapBoundaryInclusive
  tauto

/-- C10: whenever `checkCollisionDirection` returns a nonzero direction code,
`checkCollision` returns true on the same eight arguments: the classifier's
strict overlap condition implies the boundary-inclusive one. -/
theorem checkCollisionDirection_nonzero_implies_collision
    (x1 y1 w1 h1 x2 y2 w2 h2 : ℚ)
    (hdir : checkCollisionDirection x1 y1 w1 h1 x2 y2 w2 h2 ≠ 0) :
    checkCollision x1 y1 w1 h1 x2 y2 w2 h2 = true := by
  rw [checkCollision_eq_true_iff]
  by_cases hc : x1 + w1 > x2 ∧ x1 < x2 + w2 ∧ y1 + h1 > y2 ∧ y1 < y2 + h2
  · exact ⟨⟨le_of_lt hc.2.1, le_of_lt hc.1⟩, ⟨le_of_lt hc.2.2.2, le_of_lt hc.2.2.1⟩⟩
  · exact absurd (by simp [checkCollisionDirection, hc]) hdir

/-- Witness for C10 at a concrete left-overlap configuration. -/
theorem checkCollisionDirection_nonzero_implies_collision_witness :
    checkCollisionDirection 0 0 1 1 (1/2) 0 1 1 ≠ 0 ∧
    checkCollision 0 0 1 1 (1/2) 0 1 1 = true :=
  ⟨by norm_num [checkCollisionDirection],
   checkCollisionDirection_nonzero_implies_collision 0 0 1 1 (1/2) 0 1 1
     (by norm_num [checkCollisionDirection])⟩

/-- C6: `createTranslationMatrix x y` has `x` at slot 3 and `y` at slot 7,
slot 11 left 0, the diagonal slots 0, 5, 10, 15 equal to 1, and every other
slot 0; in particular for (2, 3) the translation column is (2, 3, 0). -/
theorem createTranslationMatrix_spec (x y : ℚ) :
    createTranslationMatrix x y 3 = x ∧ createTranslationMatrix x y 7 = y ∧
    createTranslationMatrix x y 11 = 0 ∧
    createTranslationMatrix x y 0 = 1 ∧ createTranslationMatrix x y 5 = 1 ∧
    createTranslationMatrix x y 10 = 1 ∧ createTranslationMatrix x y 15 = 1 ∧
    (∀ i : Fin 16, i ≠ 0 → i ≠ 3 → i ≠ 5 → i ≠ 7 → i ≠ 10 → i ≠ 15 →
      createTranslationMatrix x y i = 0) ∧
    createTranslationMatrix 2 3 3 = 2 ∧ createTranslationMatrix 2 3 7 = 3 ∧
    createTranslationMatrix 2 3 11 = 0 := by
  refine ⟨rfl, rfl, rfl, rfl, rfl, rfl, rfl, ?_, rfl, rfl, rfl⟩
  intro i h0 h3 h5 h7 h10 h15
  fin_cases i <;> first | rfl | simp_all

/-- Witness for C6: an off-diagonal, non-translation slot of the (2, 3) matrix
is 0, alongside its translation slots. -/
theorem createTranslationMatrix_spec_witness :
    (1 : Fin 16) ≠ 0 ∧ createTranslationMatrix 2 3 1 = 0 ∧
    createTranslationMatrix 2 3 3 = 2 := by
  refine ⟨by decide, ?_, (createTranslationMatrix_spec 2 3).2.2.2.2.2.2.2.2.1⟩
  exact (createTranslationMatrix_spec 2 3).2.2.2.2.2.2.2.1 1
    (by decide) (by decide) (by decide) (by decide) (by decide) (by decide)

/-- C2: while `isJumping`, with `p = (now - jumpStartTime) / jumpDuration`:
for `p < 1` the step sets the offset to `sin(p * π) * 0.5` and keeps the
flags; at the first step with `p ≥ 1` it zeroes the offset, clears
`isJumping` and sets `isFalling`, and every later jump step leaves the state
unchanged, so the transition happens exactly once per jump. -/
theorem jumpStep_spec (s : MotionState ℝ) (now p : ℝ) (hj : s.isJumping = true)
    (hp : p = (now - s.jumpStartTime) / jumpDuration) :
    (p < 1 → (jumpStep s now).jumpHeight = Real.sin (p * Real.pi) * 0.5 ∧
      (jumpStep s now).isJumping = true ∧ (jumpStep s now).isFalling = s.isFalling) ∧
    (1 ≤ p → (jumpStep s now).jumpHeight = 0 ∧ (jumpStep s now).isJumping = false ∧
      (jumpStep s now).isFalling = true ∧
      ∀ t, jumpStep (jumpStep s now) t = jumpStep s now) := by
  subst hp
  constructor
  · intro hlt
    rw [jumpStep, if_pos hj, if_pos hlt]
    exact ⟨rfl, hj, rfl⟩
  · intro hge
    have hnlt : ¬((now - s.jumpStartTime) / jumpDuration < 1) := not_lt.mpr hge
    rw [jumpStep, if_pos hj, if_neg hnlt]
    refine ⟨rfl, rfl, rfl, fun t => ?_⟩
    simp [jumpStep]

/-- Witness for C2: a jump that started at time 0 sampled at time 2 has
progress 2 ≥ 1, so the step lands in the transition branch and sets
`isFalling`. -/
theorem jumpStep_spec_witness :
    (MotionState.mk true false 0 0 : MotionState ℝ).isJumping = true ∧
    (2 : ℝ) = (2 - (MotionState.mk true false 0 0 : MotionState ℝ).jumpStartTime) /
      jumpDuration ∧
    (1 : ℝ) ≤ 2 ∧
    (jumpStep (MotionState.mk true false 0 0) 2).isFalling = true := by
  have hp : (2 : ℝ) = (2 - (MotionState.mk true false 0 0 : MotionState ℝ).jumpStartTime) /
      jumpDuration := by norm_num [jumpDuration]
  exact ⟨rfl, hp, by norm_num,
    ((jumpStep_spec (MotionState.mk true false 0 0) 2 2 rfl hp).2 (by norm_num)).2.2.1⟩

/-- C7: when space is pressed and `isJumping` is false, the input step sets
`isJumping`, records `jumpStartTime` as the current frame time and clears
`isFalling`; when space is pressed while `isJumping` is already true, the
input step leaves the state unchanged. -/
theorem inputStep_spec (s : MotionState ℝ) (now : ℝ) :
    (s.isJumping = false →
      inputStep s true now =
        { s with isJumping := true, jumpStartTime := now, isFalling := false }) ∧
    (s.isJumping = true → inputStep s true now = s) := by
  constructor
  · intro h
    rw [inputStep, if_pos (by rw [h]; rfl)]
  · intro h
    rw [inputStep, if_neg (by rw [h]; simp)]

/-- Witness for C7: starting from the initial grounded state, pressing space
at time 5 starts a jump with start time 5. -/
theorem inputStep_spec_witness :
    initialState.isJumping = false ∧
    inputStep initialState true 5 = MotionState.mk true false 0 5 :=
  ⟨rfl, (inputStep_spec initialState 5).1 rfl⟩

lemma fallStep_not_falling {α : Type} [LinearOrderedField α] (s : MotionState α)
    (h : s.isFalling = false) : fallStep s = s := by
  rw [fallStep, if_neg (by rw [h]; simp)]

lemma fallStep_falling_land {α : Type} [LinearOrderedField α] (s : MotionState α)
    (hf : s.isFalling = true) (hle : s.jumpHeight - jumpSpeed ≤ 0) :
    fallStep s = { s with jumpHeight := 0, isFalling := false } := by
  rw [fallStep, if_pos hf, if_pos hle]

lemma fallStep_falling_cont {α : Type} [LinearOrderedField α] (s : MotionState α)
    (hf : s.isFalling = true) (hgt : ¬(s.jumpHeight - jumpSpeed ≤ 0)) :
    fallStep s = { s with jumpHeight := s.jumpHeight - jumpSpeed } := by
  rw [fallStep, if_pos hf, if_neg hgt]

lemma jumpSpeed_pos {α : Type} [LinearOrderedField α] : (0 : α) < jumpSpeed := by
  norm_num [jumpSpeed]

lemma fallStep_inv {α : Type} [LinearOrderedField α] (s : MotionState α)
    (h1 : 0 ≤ s.jumpHeight) (h2 : s.isFalling = true → 0 < s.jumpHeight) :
    0 ≤ (fallStep s).jumpHeight ∧
    ((fallStep s).isFalling = true → 0 < (fallStep s).jumpHeight) ∧
    (s.isFalling = true → (fallStep s).jumpHeight < s.jumpHeight) := by
  by_cases hf : s.isFalling = true
  · by_cases hle : s.jumpHeight - jumpSpeed ≤ 0
    · rw [fallStep_falling_land s hf hle]
      exact ⟨le_refl 0, fun hc => by simp at hc, fun _ => h2 hf⟩
    · rw [fallStep_falling_cont s hf hle]
      have hjs : (0 : α) < jumpSpeed := jumpSpeed_pos
      have hpos := not_le.mp hle
      refine ⟨le_of_lt hpos, fun _ => hpos, fun _ => ?_⟩
      show s.jumpHeight - jumpSpeed < s.jumpHeight
      linarith
  · rw [fallStep_not_falling s (Bool.eq_false_iff.mpr hf)]
    exact ⟨h1, h2, fun hc => absurd hc hf⟩

lemma fallStep_iterate_inv {α : Type} [LinearOrderedField α] (s : MotionState α)
    (h1 : 0 ≤ s.jumpHeight) (h2 : s.isFalling = true → 0 < s.jumpHeight) (n : ℕ) :
    0 ≤ ((fallStep^[n]) s).jumpHeight ∧
    (((fallStep^[n]) s).isFalling = true → 0 < ((fallStep^[n]) s).jumpHeight) := by
  induction n with
  | zero => exact ⟨h1, h2⟩
  | succ n ih =>
    rw [Function.iterate_succ_apply']
    exact ⟨(fallStep_inv _ ih.1 ih.2).1, (fallStep_inv _ ih.1 ih.2).2.1⟩

lemma fallStep_terminates {α : Type} [LinearOrderedField α] :
    ∀ (n : ℕ) (s : MotionState α), s.isFalling = true → 0 < s.jumpHeight →
      s.jumpHeight ≤ n * jumpSpeed →
      ∃ m, m ≤ n ∧ ((fallStep^[m]) s).jumpHeight = 0 ∧
        ((fallStep^[m]) s).isFalling = false := by
  intro n
  induction n with
  | zero =>
    intro s hf hpos hle
    simp only [Nat.cast_zero, zero_mul] at hle
    exact absurd (lt_of_lt_of_le hpos hle) (lt_irrefl 0)
  | succ n ih =>
    intro s hf hpos hle
    by_cases hland : s.jumpHeight - jumpSpeed ≤ 0
    · refine ⟨1, by omega, ?_, ?_⟩
      · rw [Function.iterate_one, fallStep_falling_land s hf hland]
      · rw [Function.iterate_one, fallStep_falling_land s hf hland]
    · have hcont := fallStep_falling_cont s hf hland
      obtain ⟨m, hm, hh, hfl⟩ := ih (fallStep s)
        (by rw [hcont]; exact hf)
        (by rw [hcont]; exact not_le.mp hland)
        (by rw [hcont]
            show s.jumpHeight - jumpSpeed ≤ (n : α) * jumpSpeed
            push_cast at hle ⊢
            linarith)
      exact ⟨m + 1, by omega,
        by rw [Function.iterate_succ_apply]; exact hh,
        by rw [Function.iterate_succ_apply]; exact hfl⟩

/-- C3: from any state with `isFalling` and offset > 0, iterating the fall
step (with its fixed decrement `jumpSpeed = 0.1`) strictly decreases the
offset on every step that is still falling, never shows a negative offset,
and after finitely many steps reaches exactly offset 0 with `isFalling`
cleared. -/
theorem fall_sequencing (s : MotionState ℚ) (hf : s.isFalling = true)
    (hpos : 0 < s.jumpHeight) :
    (∀ n, 0 ≤ ((fallStep^[n]) s).jumpHeight) ∧
    (∀ n, ((fallStep^[n]) s).isFalling = true →
      ((fallStep^[n + 1]) s).jumpHeight < ((fallStep^[n]) s).jumpHeight) ∧
    (∃ n, ((fallStep^[n]) s).jumpHeight = 0 ∧ ((fallStep^[n]) s).isFalling = false) := by
  have h1 : 0 ≤ s.jumpHeight := le_of_lt hpos
  have h2 : s.isFalling = true → 0 < s.jumpHeight := fun _ => hpos
  refine ⟨fun n => (fallStep_iterate_inv s h1 h2 n).1, ?_, ?_⟩
  · intro n hn
    have hinv := fallStep_iterate_inv s h1 h2 n
    have hlt := (fallStep_inv _ hinv.1 hinv.2).2.2 hn
    rwa [Function.iterate_succ_apply']
  · obtain ⟨n, hn⟩ := exists_nat_ge (s.jumpHeight / jumpSpeed)
    have hle : s.jumpHeight ≤ (n : ℚ) * jumpSpeed := by
      rw [div_le_iff₀ jumpSpeed_pos] at hn
      linarith
    obtain ⟨m, _, hh, hfl⟩ := fallStep_terminates n s hf hpos hle
    exact ⟨m, hh, hfl⟩

/-- Witness for C3: a fall starting at offset 1/4 stays nonnegative and lands
at exactly 0 with `isFalling` cleared. -/
theorem fall_sequencing_witness :
    (MotionState.mk false true (1/4 : ℚ) 0).isFalling = true ∧
    (0 : ℚ) < (MotionState.mk false true (1/4 : ℚ) 0).jumpHeight ∧
    (∃ n, ((fallStep^[n]) (MotionState.mk false true (1/4 : ℚ) 0)).jumpHeight = 0 ∧
      ((fallStep^[n]) (MotionState.mk false true (1/4 : ℚ) 0)).isFalling = false) :=
  ⟨rfl, by norm_num,
   (fall_sequencing (MotionState.mk false true (1/4 : ℚ) 0) rfl (by norm_num)).2.2⟩

lemma inputStep_inv (s : MotionState ℝ) (sp : Bool) (t u : ℝ)
    (hs : MotionInv s t) (htu : t ≤ u) : MotionInv (inputStep s sp u) u := by
  rw [inputStep]
  by_cases hc : (sp && !s.isJumping) = true
  · rw [if_pos hc]
    exact ⟨hs.1, rfl, fun _ => le_refl u⟩
  · rw [if_neg hc]
    exact ⟨hs.1, hs.2.1, fun hj => le_trans (hs.2.2 hj) htu⟩

lemma jumpStep_inv (s : MotionState ℝ) (u : ℝ) (hs : MotionInv s u) :
    0 ≤ (jumpStep s u).jumpHeight ∧
    ((jumpStep s u).isFalling = true → (jumpStep s u).jumpHeight = 0) ∧
    ((jumpStep s u).isJumping = true → (jumpStep s u).jumpStartTime ≤ u) ∧
    ((jumpStep s u).isFalling = true ∨ (jumpStep s u).isFalling = s.isFalling) := by
  rw [jumpStep]
  by_cases hj : s.isJumping = true
  · rw [if_pos hj]
    by_cases hlt : (u - s.jumpStartTime) / jumpDuration < 1
    · rw [if_pos hlt]
      have hstart : s.jumpStartTime ≤ u := hs.2.2 hj
      have hp0 : 0 ≤ (u - s.jumpStartTime) / jumpDuration :=
        div_nonneg (sub_nonneg.mpr hstart) (by norm_num [jumpDuration])
      have hppi : (u - s.jumpStartTime) / jumpDuration * Real.pi ≤ Real.pi := by
        calc (u - s.jumpStartTime) / jumpDuration * Real.pi
            ≤ 1 * Real.pi :=
              mul_le_mul_of_nonneg_right (le_of_lt hlt) Real.pi_pos.le
          _ = Real.pi := one_mul _
      have hsin : 0 ≤ Real.sin ((u - s.jumpStartTime) / jumpDuration * Real.pi) :=
        Real.sin_nonneg_of_nonneg_of_le_pi (mul_nonneg hp0 Real.pi_pos.le) hppi
      exact ⟨mul_nonneg hsin (by norm_num), fun hc => absurd hc (by simp [hs.2.1]),
        fun _ => hstart, Or.inr rfl⟩
    · rw [if_neg hlt]
      exact ⟨le_refl 0, fun _ => rfl, fun hc => by simp at hc, Or.inl rfl⟩
  · rw [if_neg hj]
    exact ⟨hs.1, fun hc => absurd hc (by simp [hs.2.1]), hs.2.2, Or.inr rfl⟩

lemma fallStep_after_jump (s2 : MotionState ℝ) (u : ℝ)
    (h1 : 0 ≤ s2.jumpHeight) (h2 : s2.isFalling = true → s2.jumpHeight = 0)
    (h3 : s2.isJumping = true → s2.jumpStartTime ≤ u) :
    MotionInv (fallStep s2) u := by
  by_cases hf : s2.isFalling = true
  · have hh := h2 hf
    rw [fallStep_falling_land s2 hf (by rw [hh]; linarith [jumpSpeed_pos (α := ℝ)])]
    exact ⟨le_refl 0, rfl, h3⟩
  · rw [fallStep_not_falling s2 (Bool.eq_false_iff.mpr hf)]
    exact ⟨h1, Bool.eq_false_iff.mpr hf, h3⟩

lemma frameStep_inv (s : MotionState ℝ) (sp : Bool) (t u : ℝ)
    (hs : MotionInv s t) (htu : t ≤ u) : MotionInv (frameStep s sp u) u := by
  have hin := inputStep_inv s sp t u hs htu
  have hjm := jumpStep_inv (inputStep s sp u) u hin
  exact fallStep_after_jump _ u hjm.1 hjm.2.1 hjm.2.2.1

lemma runFrames_inv : ∀ (frames : List (Bool × ℝ)) (s : MotionState ℝ) (t : ℝ),
    MotionInv s t → List.Chain (fun a b => a ≤ b) t (frames.map Prod.snd) →
    ∃ u, MotionInv (runFrames s frames) u := by
  intro frames
  induction frames with
  | nil => exact fun s t hs _ => ⟨t, hs⟩
  | cons f rest ih =>
    intro s t hs hchain
    obtain ⟨sp, u⟩ := f
    rw [List.map_cons] at hchain
    cases hchain with
    | cons htu hrest =>
      exact ih (frameStep s sp u) u (frameStep_inv s sp t u hs htu) hrest

/-- C4: for every run of the render loop from the initial state over frames
with nondecreasing clock times, the final jump offset is nonnegative and at
most one of `isJumping`, `isFalling` is true; moreover every single iteration
preserves the loop invariant `MotionInv`. -/
theorem loop_state_invariant (frames : List (Bool × ℝ))
    (hmono : List.Chain' (fun a b => a ≤ b) (frames.map Prod.snd)) :
    (0 ≤ (runFrames initialState frames).jumpHeight ∧
      ¬((runFrames initialState frames).isJumping = true ∧
        (runFrames initialState frames).isFalling = true)) ∧
    (∀ (s : MotionState ℝ) (sp : Bool) (t u : ℝ),
      MotionInv s t → t ≤ u → MotionInv (frameStep s sp u) u) := by
  refine ⟨?_, fun s sp t u hs htu => frameStep_inv s sp t u hs htu⟩
  have hrun : ∃ u, MotionInv (runFrames initialState frames) u := by
    cases frames with
    | nil => exact ⟨0, le_refl 0, rfl, fun hc => (Bool.false_ne_true hc).elim⟩
    | cons f rest =>
      obtain ⟨sp, u⟩ := f
      have hchain : List.Chain (fun a b : ℝ => a ≤ b) u (List.map Prod.snd rest) := hmono
      exact runFrames_inv ((sp, u) :: rest) initialState u
        ⟨le_refl 0, rfl, fun hc => by simp [initialState] at hc⟩
        (List.Chain.cons (le_refl u) hchain)
  obtain ⟨u, hu⟩ := hrun
  exact ⟨hu.1, fun hc => by rw [hu.2.1] at hc; exact absurd hc.2 (by simp)⟩

/-- Witness for C4: a run that starts a jump at time 0 and reaches time 2 has
a nonnegative offset and compatible flags. -/
theorem loop_state_invariant_witness :
    List.Chain' (fun a b : ℝ => a ≤ b)
      (([(true, 0), (false, 2)] : List (Bool × ℝ)).map Prod.snd) ∧
    0 ≤ (runFrames initialState [(true, 0), (false, 2)]).jumpHeight := by
  have hmono : List.Chain' (fun a b : ℝ => a ≤ b)
      (([(true, 0), (false, 2)] : List (Bool × ℝ)).map Prod.snd) := by
    simp [List.chain'_cons]
  exact ⟨hmono, (loop_state_invariant [(true, 0), (false, 2)] hmono).1.1⟩

lemma inputStep_isFalling_false (s : MotionState ℝ) (sp : Bool) (u : ℝ)
    (hs : s.isFalling = false) : (inputStep s sp u).isFalling = false := by
  rw [inputStep]
  by_cases hc : (sp && !s.isJumping) = true
  · rw [if_pos hc]
  · rw [if_neg hc]
    exact hs

lemma fallStep_jumpStep_isFalling_false (s : MotionState ℝ) (u : ℝ)
    (hs : s.isFalling = false) : (fallStep (jumpStep s u)).isFalling = false := by
  have h : (jumpStep s u).isFalling = false ∨
      ((jumpStep s u).isFalling = true ∧ (jumpStep s u).jumpHeight = 0) := by
    rw [jumpStep]
    by_cases hj : s.isJumping = true
    · rw [if_pos hj]
      by_cases hlt : (u - s.jumpStartTime) / jumpDuration < 1
      · rw [if_pos hlt]
        exact Or.inl hs
      · rw [if_neg hlt]
        exact Or.inr ⟨rfl, rfl⟩
    · rw [if_neg hj]
      exact Or.inl hs
  rcases h with h | ⟨hf, hh⟩
  · rw [fallStep_not_falling _ h]
    exact h
  · rw [fallStep_falling_land _ hf
      (by rw [hh]; linarith [jumpSpeed_pos (α := ℝ)])]

lemma frameStep_isFalling_false (s : MotionState ℝ) (sp : Bool) (u : ℝ)
    (hs : s.isFalling = false) : (frameStep s sp u).isFalling = false :=
  fallStep_jumpStep_isFalling_false (inputStep s sp u) u
    (inputStep_isFalling_false s sp u hs)

lemma runFrames_isFalling_false :
    ∀ (frames : List (Bool × ℝ)) (s : MotionState ℝ), s.isFalling = false →
      (runFrames s frames).isFalling = false := by
  intro frames
  induction frames with
  | nil => exact fun s hs => hs
  | cons f rest ih =>
    intro s hs
    obtain ⟨sp, u⟩ := f
    exact ih (frameStep s sp u) (frameStep_isFalling_false s sp u hs)

/-- C9: at the end of every frame-loop iteration `isFalling` is false: the
jump-completion branch zeroes the offset before setting `isFalling`, and the
fall branch of the same iteration then clamps the offset to 0 and clears
`isFalling`, so a falling phase never persists to the next frame. -/
theorem falling_never_persists (frames : List (Bool × ℝ)) :
    (runFrames initialState frames).isFalling = false :=
  runFrames_isFalling_false frames initialState rfl

/-- C8: `main` returns -1, after writing a message to standard error, on each
initialization failure (GLFW init, window creation, GLEW init), and returns 0
with nothing on standard error when the render loop exits normally via the
window-close flag. -/
theorem main_exit_codes (w g : Bool) :
    (mainRun false w g).1 = -1 ∧ (mainRun false w g).2 ≠ [] ∧
    (mainRun true false g).1 = -1 ∧ (mainRun true false g).2 ≠ [] ∧
    (mainRun true true false).1 = -1 ∧ (mainRun true true false).2 ≠ [] ∧
    (mainRun true true true).1 = 0 ∧ (mainRun true true true).2 = [] := by
  simp [mainRun]

end CCollision
